import Mathlib

/-!
Verification of the VoiceBridge speech-lab frontend
(`src/voicebridge-frontend/src/pages/SpeechLab.jsx` and
`src/pages/VoicePersonalizer.jsx`).

The JavaScript source is shallowly embedded: byte buffers become `List ℕ`
(each entry < 256), float audio samples become `ℚ`, `localStorage` becomes a
function from string keys to optional stored values, and the React event
handlers become pure state-transition functions.  Nondeterministic inputs of
the original code (generated ids, timestamps, `Math.random` draws, network
outcomes) are passed in as explicit parameters.
-/

namespace SpeechLab

/-! ## WAV encoder (`encodeWAV`, SpeechLab.jsx lines 291-335) -/

/-- Little-endian bytes of a 16-bit unsigned value, as `DataView.setUint16`
lays them out. -/
def u16le (n : ℕ) : List ℕ := [n % 256, n / 256 % 256]

/-- Little-endian bytes of a 32-bit unsigned value, as `DataView.setUint32`
lays them out. -/
def u32le (n : ℕ) : List ℕ :=
  [n % 256, n / 256 % 256, n / 65536 % 256, n / 16777216 % 256]

/-- Bytes written by `writeString`: the code units of an ASCII string
(`string.charCodeAt(i)` for each position). -/
def asciiBytes (s : String) : List ℕ := s.data.map Char.toNat

/-- JavaScript number-to-integer conversion used by `DataView.setInt16`:
truncation toward zero. -/
def jsTrunc (q : ℚ) : ℤ := if q < 0 then ⌈q⌉ else ⌊q⌋

/-- Two's-complement little-endian bytes of a signed 16-bit value. -/
def i16le (v : ℤ) : List ℕ := u16le (v % 65536).toNat

/-- `Math.max(-1, Math.min(1, x))` from line 328. -/
def clampSample (q : ℚ) : ℚ := max (-1) (min 1 q)

/-- The per-sample conversion of lines 328-329: clamp to [-1, 1], then scale
negative values by 0x8000 and non-negative values by 0x7FFF, truncated to an
integer by `setInt16`. -/
def quantize (q : ℚ) : ℤ :=
  let sample := clampSample q
  jsTrunc (if sample < 0 then sample * 0x8000 else sample * 0x7FFF)

/-- A decoded `AudioBuffer`: channel count, sample rate, frame count, and
per-channel sample data (`getChannelData c` is channel `c`, indexed by
frame). -/
structure AudioBuffer where
  numberOfChannels : ℕ
  sampleRate : ℕ
  length : ℕ
  getChannelData : ℕ → ℕ → ℚ

/-- The 44-byte WAV header written by lines 310-322, in write order (the
writes at offsets 0,4,8,12,16,20,22,24,28,32,34,36,40 are contiguous). -/
def wavHeader (numChannels sampleRate dataSize : ℕ) : List ℕ :=
  let blockAlign := numChannels * 2
  let byteRate := sampleRate * blockAlign
  asciiBytes "RIFF" ++ u32le (36 + dataSize) ++ asciiBytes "WAVE" ++
  asciiBytes "fmt " ++ u32le 16 ++ u16le 1 ++ u16le numChannels ++
  u32le sampleRate ++ u32le byteRate ++ u16le blockAlign ++ u16le 16 ++
  asciiBytes "data" ++ u32le dataSize

/-- The interleaved sample bytes written by lines 325-332: for each frame,
one quantized 16-bit little-endian sample per channel. -/
def wavData (b : AudioBuffer) : List ℕ :=
  (List.range b.length).flatMap fun i =>
    (List.range b.numberOfChannels).flatMap fun channel =>
      i16le (quantize (b.getChannelData channel i))

/-- `encodeWAV` (lines 291-335): header followed by interleaved data;
`dataSize = audioBuffer.length * blockAlign`. -/
def encodeWAV (b : AudioBuffer) : List ℕ :=
  wavHeader b.numberOfChannels b.sampleRate (b.length * (b.numberOfChannels * 2)) ++
  wavData b

/-- Read back a little-endian 16-bit field at a byte offset. -/
def readU16le (l : List ℕ) (off : ℕ) : ℕ :=
  l.getD off 0 + 256 * l.getD (off + 1) 0

/-- Read back a little-endian 32-bit field at a byte offset. -/
def readU32le (l : List ℕ) (off : ℕ) : ℕ :=
  l.getD off 0 + 256 * l.getD (off + 1) 0 + 65536 * l.getD (off + 2) 0 +
    16777216 * l.getD (off + 3) 0

theorem wavHeader_length (m r d : ℕ) : (wavHeader m r d).length = 44 := rfl

theorem i16le_length (v : ℤ) : (i16le v).length = 2 := rfl

theorem u16_recompose (x : ℕ) (h : x < 65536) :
    x % 256 + 256 * (x / 256 % 256) = x := by omega

theorem u32_recompose (x : ℕ) (h : x < 4294967296) :
    x % 256 + 256 * (x / 256 % 256) + 65536 * (x / 65536 % 256) +
      16777216 * (x / 16777216 % 256) = x := by omega

theorem flatMap_length_const {α : Type} (f : ℕ → List α) (k : ℕ)
    (hk : ∀ j, (f j).length = k) :
    ∀ (n s : ℕ), ((List.range' s n).flatMap f).length = n * k := by
  intro n
  induction n with
  | zero => intro s; simp
  | succ m ih =>
    intro s
    rw [List.range'_succ, List.flatMap_cons, List.length_append, hk, ih]
    ring

theorem flatMap_extract {α : Type} (f : ℕ → List α) (k : ℕ)
    (hk : ∀ j, (f j).length = k) :
    ∀ (i n s : ℕ), i < n →
      ∃ t, ((List.range' s n).flatMap f).drop (k * i) = f (s + i) ++ t := by
  intro i
  induction i with
  | zero =>
    intro n s hn
    obtain ⟨m, rfl⟩ := Nat.exists_eq_succ_of_ne_zero (Nat.pos_iff_ne_zero.mp hn)
    rw [List.range'_succ, List.flatMap_cons]
    exact ⟨(List.range' (s + 1) m).flatMap f, by simp⟩
  | succ i ih =>
    intro n s hn
    obtain ⟨m, rfl⟩ := Nat.exists_eq_succ_of_ne_zero
      (Nat.pos_iff_ne_zero.mp (Nat.lt_of_le_of_lt (Nat.zero_le _) hn))
    rw [List.range'_succ, List.flatMap_cons]
    have hdrop : (f s ++ (List.range' (s + 1) m).flatMap f).drop (k * (i + 1)) =
        ((List.range' (s + 1) m).flatMap f).drop (k * i) := by
      have h2 : k * (i + 1) = k + k * i := by ring
      rw [h2, ← List.drop_drop, ← hk s, List.drop_left]
    obtain ⟨t, ht⟩ := ih m (s + 1) (Nat.lt_of_succ_lt_succ hn)
    have harg : s + 1 + i = s + (i + 1) := by omega
    rw [harg] at ht
    exact ⟨t, by rw [hdrop, ht]⟩

theorem ascii_RIFF : asciiBytes "RIFF" = [82, 73, 70, 70] := rfl

theorem ascii_WAVE : asciiBytes "WAVE" = [87, 65, 86, 69] := rfl

theorem ascii_fmt : asciiBytes "fmt " = [102, 109, 116, 32] := rfl

theorem ascii_data : asciiBytes "data" = [100, 97, 116, 97] := rfl

theorem encodeWAV_eq (b : AudioBuffer) :
    encodeWAV b =
      82 :: 73 :: 70 :: 70 ::
      (36 + b.length * (b.numberOfChannels * 2)) % 256 ::
      (36 + b.length * (b.numberOfChannels * 2)) / 256 % 256 ::
      (36 + b.length * (b.numberOfChannels * 2)) / 65536 % 256 ::
      (36 + b.length * (b.numberOfChannels * 2)) / 16777216 % 256 ::
      87 :: 65 :: 86 :: 69 ::
      102 :: 109 :: 116 :: 32 ::
      16 :: 0 :: 0 :: 0 ::
      1 :: 0 ::
      b.numberOfChannels % 256 :: b.numberOfChannels / 256 % 256 ::
      b.sampleRate % 256 :: b.sampleRate / 256 % 256 ::
      b.sampleRate / 65536 % 256 :: b.sampleRate / 16777216 % 256 ::
      b.sampleRate * (b.numberOfChannels * 2) % 256 ::
      b.sampleRate * (b.numberOfChannels * 2) / 256 % 256 ::
      b.sampleRate * (b.numberOfChannels * 2) / 65536 % 256 ::
      b.sampleRate * (b.numberOfChannels * 2) / 16777216 % 256 ::
      b.numberOfChannels * 2 % 256 :: b.numberOfChannels * 2 / 256 % 256 ::
      16 :: 0 ::
      100 :: 97 :: 116 :: 97 ::
      b.length * (b.numberOfChannels * 2) % 256 ::
      b.length * (b.numberOfChannels * 2) / 256 % 256 ::
      b.length * (b.numberOfChannels * 2) / 65536 % 256 ::
      b.length * (b.numberOfChannels * 2) / 16777216 % 256 ::
      wavData b := by
  simp [encodeWAV, wavHeader, ascii_RIFF, ascii_WAVE, ascii_fmt, ascii_data,
    u16le, u32le]

theorem wavData_length (b : AudioBuffer) :
    (wavData b).length = b.length * (b.numberOfChannels * 2) := by
  rw [wavData, List.range_eq_range']
  exact flatMap_length_const _ (b.numberOfChannels * 2)
    (fun i => by
      rw [List.range_eq_range']
      exact flatMap_length_const _ 2 (fun c => i16le_length _) _ _)
    b.length 0

theorem wavData_extract (b : AudioBuffer) {i c : ℕ}
    (hi : i < b.length) (hc : c < b.numberOfChannels) :
    ((wavData b).drop ((i * b.numberOfChannels + c) * 2)).take 2 =
      i16le (quantize (b.getChannelData c i)) := by
  have hF : ∀ j, ((List.range' 0 b.numberOfChannels).flatMap fun channel =>
      i16le (quantize (b.getChannelData channel j))).length =
        b.numberOfChannels * 2 :=
    fun j => flatMap_length_const _ 2 (fun v => i16le_length _) _ _
  rw [wavData]
  simp only [List.range_eq_range']
  have hsplit : (i * b.numberOfChannels + c) * 2 =
      b.numberOfChannels * 2 * i + 2 * c := by ring
  rw [hsplit, ← List.drop_drop]
  obtain ⟨t, ht⟩ := flatMap_extract
    (fun j => (List.range' 0 b.numberOfChannels).flatMap fun channel =>
      i16le (quantize (b.getChannelData channel j)))
    (b.numberOfChannels * 2) hF i b.length 0 hi
  rw [ht]
  simp only [Nat.zero_add]
  have hlen : 2 * c ≤ ((List.range' 0 b.numberOfChannels).flatMap fun channel =>
      i16le (quantize (b.getChannelData channel i))).length := by
    rw [hF]; omega
  rw [List.drop_append_of_le_length hlen]
  obtain ⟨t2, ht2⟩ := flatMap_extract
    (fun channel => i16le (quantize (b.getChannelData channel i))) 2
    (fun v => i16le_length _) c b.numberOfChannels 0 hc
  simp only [Nat.zero_add] at ht2
  rw [ht2, List.append_assoc]
  exact List.take_left' rfl

/-- C1: `encodeWAV` on a buffer with `M` channels, `N` frames and sample
rate `R` yields exactly `44 + N*M*2` bytes; the header carries the tags
`RIFF`/`WAVE`/`fmt `/`data` at offsets 0/8/12/36 and little-endian fields
audio format 1 at 20, channel count `M` at 22, sample rate `R` at 24, byte
rate `R*M*2` at 28, block align `M*2` at 32, bits per sample 16 at 34; the
data section holds the quantized 16-bit little-endian samples in
channel-interleaved order, channel `c` of frame `i` at byte offset
`44 + (i*M + c)*2`. -/
theorem encodeWAV_spec (b : AudioBuffer)
    (hM : b.numberOfChannels < 65536)
    (hBA : b.numberOfChannels * 2 < 65536)
    (hR : b.sampleRate < 4294967296)
    (hBR : b.sampleRate * b.numberOfChannels * 2 < 4294967296) :
    (encodeWAV b).length = 44 + b.length * b.numberOfChannels * 2 ∧
    (encodeWAV b).take 4 = asciiBytes "RIFF" ∧
    ((encodeWAV b).drop 8).take 4 = asciiBytes "WAVE" ∧
    ((encodeWAV b).drop 12).take 4 = asciiBytes "fmt " ∧
    ((encodeWAV b).drop 36).take 4 = asciiBytes "data" ∧
    readU16le (encodeWAV b) 20 = 1 ∧
    readU16le (encodeWAV b) 22 = b.numberOfChannels ∧
    readU32le (encodeWAV b) 24 = b.sampleRate ∧
    readU32le (encodeWAV b) 28 = b.sampleRate * b.numberOfChannels * 2 ∧
    readU16le (encodeWAV b) 32 = b.numberOfChannels * 2 ∧
    readU16le (encodeWAV b) 34 = 16 ∧
    ∀ i, i < b.length → ∀ c, c < b.numberOfChannels →
      ((encodeWAV b).drop (44 + (i * b.numberOfChannels + c) * 2)).take 2 =
        i16le (quantize (b.getChannelData c i)) := by
  have heq := encodeWAV_eq b
  refine ⟨?_, ?_, ?_, ?_, ?_, ?_, ?_, ?_, ?_, ?_, ?_, ?_⟩
  · rw [encodeWAV, List.length_append, wavHeader_length, wavData_length]
    ring
  · rw [heq]; rfl
  · rw [heq]; rfl
  · rw [heq]; rfl
  · rw [heq]; rfl
  · rw [heq]; rfl
  · rw [heq]
    show b.numberOfChannels % 256 + 256 * (b.numberOfChannels / 256 % 256) =
      b.numberOfChannels
    omega
  · rw [heq]
    show b.sampleRate % 256 + 256 * (b.sampleRate / 256 % 256) +
      65536 * (b.sampleRate / 65536 % 256) +
      16777216 * (b.sampleRate / 16777216 % 256) = b.sampleRate
    omega
  · rw [heq, Nat.mul_assoc]
    rw [Nat.mul_assoc] at hBR
    show b.sampleRate * (b.numberOfChannels * 2) % 256 +
      256 * (b.sampleRate * (b.numberOfChannels * 2) / 256 % 256) +
      65536 * (b.sampleRate * (b.numberOfChannels * 2) / 65536 % 256) +
      16777216 * (b.sampleRate * (b.numberOfChannels * 2) / 16777216 % 256) =
      b.sampleRate * (b.numberOfChannels * 2)
    omega
  · rw [heq]
    show b.numberOfChannels * 2 % 256 + 256 * (b.numberOfChannels * 2 / 256 % 256) =
      b.numberOfChannels * 2
    omega
  · rw [heq]; rfl
  · intro i hi c hc
    have hdrop44 : (encodeWAV b).drop 44 = wavData b := by rw [heq]; rfl
    rw [← List.drop_drop, hdrop44]
    exact wavData_extract b hi hc

/-- Concrete two-frame mono buffer used to exercise `encodeWAV_spec`. -/
def testBuffer : AudioBuffer where
  numberOfChannels := 1
  sampleRate := 8000
  length := 2
  getChannelData := fun _ i => if i = 0 then 1/2 else -1/4

theorem encodeWAV_spec_witness :
    readU16le (encodeWAV testBuffer) 22 = testBuffer.numberOfChannels ∧
    ((encodeWAV testBuffer).drop (44 + (1 * testBuffer.numberOfChannels + 0) * 2)).take 2 =
      i16le (quantize (testBuffer.getChannelData 0 1)) := by
  have h := encodeWAV_spec testBuffer (by norm_num [testBuffer])
    (by norm_num [testBuffer]) (by norm_num [testBuffer]) (by norm_num [testBuffer])
  exact ⟨h.2.2.2.2.2.2.1,
    h.2.2.2.2.2.2.2.2.2.2.2 1 (by norm_num [testBuffer]) 0 (by norm_num [testBuffer])⟩

/-- C2: the sample conversion first clamps to [-1, 1] and then scales
negative values by 0x8000 and non-negative ones by 0x7FFF; in particular
1.0 encodes to 0x7FFF, -1.0 to -0x8000, 0.0 to 0, and any input above 1 or
below -1 encodes identically to 1.0 or -1.0 respectively. -/
theorem quantize_spec :
    (∀ q : ℚ, quantize q =
      jsTrunc (if clampSample q < 0 then clampSample q * 0x8000
               else clampSample q * 0x7FFF)) ∧
    quantize 1 = 0x7FFF ∧
    quantize (-1) = -0x8000 ∧
    quantize 0 = 0 ∧
    (∀ q : ℚ, 1 < q → quantize q = quantize 1) ∧
    (∀ q : ℚ, q < -1 → quantize q = quantize (-1)) := by
  refine ⟨fun q => rfl, ?_, ?_, ?_, ?_, ?_⟩
  · have h : clampSample 1 = 1 := by
      rw [clampSample, min_self]; exact max_eq_right (by norm_num)
    rw [quantize]
    simp only [h]
    norm_num [jsTrunc]
  · have h : clampSample (-1) = -1 := by
      rw [clampSample, min_eq_right (by norm_num : (-1:ℚ) ≤ 1), max_self]
    rw [quantize]
    simp only [h]
    rw [if_pos (by norm_num : (-1:ℚ) < 0), jsTrunc,
      if_pos (by norm_num : (-1:ℚ) * 32768 < 0),
      show ((-1 : ℚ) * 32768) = ((-32768 : ℤ) : ℚ) by norm_num, Int.ceil_intCast]
  · have h : clampSample 0 = 0 := by
      rw [clampSample, min_eq_right (by norm_num : (0:ℚ) ≤ 1)]
      exact max_eq_right (by norm_num)
    rw [quantize]
    simp only [h]
    norm_num [jsTrunc]
  · intro q hq
    have hcl : clampSample q = clampSample 1 := by
      rw [clampSample, clampSample, min_eq_left hq.le, min_self]
    rw [quantize, quantize, hcl]
  · intro q hq
    have hmin : min 1 q = q := min_eq_right (by linarith)
    have hcl : clampSample q = clampSample (-1) := by
      rw [clampSample, clampSample, hmin, max_eq_left hq.le,
        min_eq_right (by norm_num : (-1 : ℚ) ≤ 1), max_self]
    rw [quantize, quantize, hcl]

theorem quantize_spec_witness :
    quantize 2 = quantize 1 ∧ quantize (-2) = quantize (-1) :=
  ⟨quantize_spec.2.2.2.2.1 2 (by norm_num),
   quantize_spec.2.2.2.2.2 (-2) (by norm_num)⟩

/-! ## Live transcription session (SpeechLab.jsx lines 193-230)

The `SpeechRecognition` handlers installed by the `useEffect` at lines
170-241.  The effect re-runs whenever `isLiveTranscribing` changes, so each
installed handler reads the current value of the live flag; the handlers are
modelled as transition functions on the component state. -/

/-- One entry of a recognition event's `results` slice (from `resultIndex`
on): the best alternative's transcript and the `isFinal` flag. -/
structure RecResult where
  transcript : String
  isFinal : Bool

/-- The component state touched by the recognition handlers.  `recRunning`
models whether the underlying recognition stream is running (set by
`recognition.start()`). -/
structure LiveState where
  transcribedText : String
  liveSessionText : String
  interimTranscript : String
  isLiveTranscribing : Bool
  autoSpeak : Bool
  recRunning : Bool
  ttsCalls : List String
deriving DecidableEq

/-- JavaScript `String.prototype.trim`: strip leading and trailing
whitespace (modelled over the whitespace characters these transcripts can
contain). -/
def jsTrim (s : String) : String :=
  ⟨((s.data.dropWhile Char.isWhitespace).reverse.dropWhile
      Char.isWhitespace).reverse⟩

/-- `recognitionRef.current.onresult` (lines 193-219): accumulate final
transcripts (each followed by a space) and interim transcripts over the
event's results; a truthy (nonempty) final transcript is trimmed, appended
to both text accumulators with a space separator, clears the interim text
and may trigger auto-speak; otherwise the interim text is replaced. -/
def onresult (ev : List RecResult) (s : LiveState) : LiveState :=
  let acc := ev.foldl
    (fun (p : String × String) r =>
      if r.isFinal then (p.1 ++ r.transcript ++ " ", p.2)
      else (p.1, p.2 ++ r.transcript))
    ("", "")
  let finalTranscript := acc.1
  let interimTranscript := acc.2
  if finalTranscript ≠ "" then
    let newText := jsTrim finalTranscript
    { s with
      transcribedText := s.transcribedText ++ " " ++ newText,
      liveSessionText := s.liveSessionText ++ " " ++ newText,
      interimTranscript := "",
      ttsCalls :=
        if newText ≠ "" ∧ s.isLiveTranscribing ∧ s.autoSpeak then
          s.ttsCalls ++ [newText]
        else s.ttsCalls }
  else
    { s with interimTranscript := interimTranscript }

/-- `recognitionRef.current.onerror` (lines 221-224): drop the live flag. -/
def onerrorEvent (s : LiveState) : LiveState :=
  { s with isLiveTranscribing := false }

/-- A stream-end event: the stream has stopped, then
`recognitionRef.current.onend` (lines 226-230) restarts it iff the live
flag is still set. -/
def onendEvent (s : LiveState) : LiveState :=
  if s.isLiveTranscribing then { s with recRunning := true }
  else { s with recRunning := false }

/-- `startLiveTranscription` (lines 544-559): start the stream, set the
live flag, clear all session text. -/
def startLiveTranscription (s : LiveState) : LiveState :=
  { s with
    recRunning := true,
    isLiveTranscribing := true,
    transcribedText := "",
    interimTranscript := "",
    liveSessionText := "" }

/-- Number of occurrences of `pat` as a contiguous character substring. -/
def occCount (pat s : String) : ℕ :=
  ((List.range (s.data.length + 1)).filter
    (fun i => (s.data.drop i).take pat.data.length = pat.data)).length

/-- The empty live session: live flag just set, no accumulated text. -/
def emptyLiveSession : LiveState :=
  { transcribedText := "", liveSessionText := "", interimTranscript := "",
    isLiveTranscribing := true, autoSpeak := true, recRunning := true,
    ttsCalls := [] }

/-- C3: on the event sequence [interim "hel", interim "hello", final
"hello world"] from the empty live session, the interim text reads "hel",
"hello", "" after the successive events and the committed session text ends
up containing "hello world" exactly once; moreover a non-final event always
replaces (never appends to) the interim text and a final event always
clears it. -/
theorem live_session_ordering :
    (onresult [⟨"hel", false⟩] emptyLiveSession).interimTranscript = "hel" ∧
    (onresult [⟨"hello", false⟩]
      (onresult [⟨"hel", false⟩] emptyLiveSession)).interimTranscript = "hello" ∧
    (onresult [⟨"hello world", true⟩]
      (onresult [⟨"hello", false⟩]
        (onresult [⟨"hel", false⟩] emptyLiveSession))).interimTranscript = "" ∧
    occCount "hello world"
      (onresult [⟨"hello world", true⟩]
        (onresult [⟨"hello", false⟩]
          (onresult [⟨"hel", false⟩] emptyLiveSession))).liveSessionText = 1 ∧
    (∀ s : LiveState, ∀ t : String,
      (onresult [⟨t, false⟩] s).interimTranscript = t) ∧
    (∀ s : LiveState, ∀ t : String,
      (onresult [⟨t, true⟩] s).interimTranscript = "") := by
  refine ⟨by decide, by decide, by decide, by decide, ?_, ?_⟩
  · intro s t
    simp only [onresult, List.foldl_cons, List.foldl_nil]
    norm_num
  · intro s t
    simp only [onresult, List.foldl_cons, List.foldl_nil]
    norm_num
    split <;> rfl

/-- C4: while the live flag is set, a stream-end event restarts the stream
and leaves the flag and the committed session text unchanged; a stream-error
event clears the live flag, and the subsequent stream end does not restart. -/
theorem live_session_autorestart (s : LiveState)
    (h : s.isLiveTranscribing = true) :
    (onendEvent s).recRunning = true ∧
    (onendEvent s).isLiveTranscribing = true ∧
    (onendEvent s).liveSessionText = s.liveSessionText ∧
    (onerrorEvent s).isLiveTranscribing = false ∧
    (onerrorEvent s).liveSessionText = s.liveSessionText ∧
    (onendEvent (onerrorEvent s)).recRunning = false := by
  refine ⟨?_, ?_, ?_, rfl, rfl, ?_⟩
  · rw [onendEvent, if_pos h]
  · rw [onendEvent, if_pos h]; exact h
  · rw [onendEvent, if_pos h]
  · rw [onendEvent, if_neg]
    simp [onerrorEvent]

theorem live_session_autorestart_witness :
    (onendEvent emptyLiveSession).recRunning = true ∧
    (onendEvent (onerrorEvent emptyLiveSession)).recRunning = false :=
  ⟨(live_session_autorestart emptyLiveSession (by decide)).1,
   (live_session_autorestart emptyLiveSession (by decide)).2.2.2.2.2⟩

/-! ## History store (SpeechLab.jsx lines 24-83)

`localStorage` is modelled as a map from string keys to optional stored
values; the JSON (de)serialization of history arrays is a bijection on the
values this app writes, so a stored history array is modelled directly as a
list.  The generated id and timestamp of a new entry are passed in as
explicit parameters. -/

/-- One history record; the union of the fields of the objects built by
`saveSTTHistory` (`accuracy`, `type = "stt"`) and `saveTTSHistory`
(`voiceModel`, `type = "tts"`). -/
structure HistoryItem where
  id : String
  content : String
  accuracy : ℚ
  voiceModel : String
  language : String
  duration : ℚ
  timestamp : String
  type : String
deriving DecidableEq, Inhabited

/-- A `localStorage` value: a serialized history array under the two
history keys, or an arbitrary string under any other key. -/
inductive StoredVal where
  | hist (l : List HistoryItem)
  | other (s : String)
deriving DecidableEq

/-- The browser `localStorage` for this origin. -/
def Store := String → Option StoredVal

/-- The empty storage state. -/
def emptyStore : Store := fun _ => none

def sttKey : String := "speechLab_stt_history"

def ttsKey : String := "speechLab_tts_history"

/-- `JSON.parse(localStorage.getItem(key) || chr(91) ++ chr(93))`: a missing
key reads as the empty array. -/
def getHistory (store : Store) (key : String) : List HistoryItem :=
  match store key with
  | some (StoredVal.hist l) => l
  | _ => []

/-- `localStorage.setItem(key, JSON.stringify(l))`. -/
def setHistory (store : Store) (key : String) (l : List HistoryItem) : Store :=
  fun k => if k = key then some (StoredVal.hist l) else store k

/-- `saveSTTHistory` (lines 35-50): build the item, prepend it to the first
49 stored entries (`existing.slice(0, 49)`), persist, return the item. -/
def saveSTTHistory (newId timestamp transcribedText : String) (accuracy : ℚ)
    (language : String) (duration : ℚ) (store : Store) : HistoryItem × Store :=
  let historyItem : HistoryItem :=
    { id := newId, content := transcribedText, accuracy := accuracy,
      voiceModel := "", language := language, duration := duration,
      timestamp := timestamp, type := "stt" }
  let existing := getHistory store sttKey
  let updated := historyItem :: existing.take 49
  (historyItem, setHistory store sttKey updated)

/-- `saveTTSHistory` (lines 52-67): same shape for the text-to-speech
collection. -/
def saveTTSHistory (newId timestamp text voiceModel language : String)
    (duration : ℚ) (store : Store) : HistoryItem × Store :=
  let historyItem : HistoryItem :=
    { id := newId, content := text, accuracy := 0, voiceModel := voiceModel,
      language := language, duration := duration, timestamp := timestamp,
      type := "tts" }
  let existing := getHistory store ttsKey
  let updated := historyItem :: existing.take 49
  (historyItem, setHistory store ttsKey updated)

/-- The per-append inputs of one `saveSTTHistory` call. -/
structure STTArgs where
  newId : String
  timestamp : String
  content : String
  accuracy : ℚ
  language : String
  duration : ℚ

/-- The per-append inputs of one `saveTTSHistory` call. -/
structure TTSArgs where
  newId : String
  timestamp : String
  content : String
  voiceModel : String
  language : String
  duration : ℚ

/-- `saveSTTHistory` as a store transition. -/
def saveSTTHistoryS (a : STTArgs) (store : Store) : Store :=
  (saveSTTHistory a.newId a.timestamp a.content a.accuracy a.language
    a.duration store).2

/-- `saveTTSHistoryS` as a store transition. -/
def saveTTSHistoryS (a : TTSArgs) (store : Store) : Store :=
  (saveTTSHistory a.newId a.timestamp a.content a.voiceModel a.language
    a.duration store).2

/-- The item object built by `saveSTTHistory`. -/
def mkSTTItem (a : STTArgs) : HistoryItem :=
  { id := a.newId, content := a.content, accuracy := a.accuracy,
    voiceModel := "", language := a.language, duration := a.duration,
    timestamp := a.timestamp, type := "stt" }

/-- The item object built by `saveTTSHistory`. -/
def mkTTSItem (a : TTSArgs) : HistoryItem :=
  { id := a.newId, content := a.content, accuracy := 0,
    voiceModel := a.voiceModel, language := a.language, duration := a.duration,
    timestamp := a.timestamp, type := "tts" }

theorem getHistory_setHistory (store : Store) (key : String)
    (l : List HistoryItem) : getHistory (setHistory store key l) key = l := by
  simp [getHistory, setHistory]

theorem getHistory_setHistory_ne (store : Store) (key key2 : String)
    (l : List HistoryItem) (h : key2 ≠ key) :
    getHistory (setHistory store key l) key2 = getHistory store key2 := by
  simp [getHistory, setHistory, h]

theorem saveSTT_step (a : STTArgs) (st : Store) :
    getHistory (saveSTTHistoryS a st) sttKey =
      mkSTTItem a :: (getHistory st sttKey).take 49 := by
  simp [saveSTTHistoryS, saveSTTHistory, mkSTTItem, getHistory_setHistory]

theorem saveTTS_step (a : TTSArgs) (st : Store) :
    getHistory (saveTTSHistoryS a st) ttsKey =
      mkTTSItem a :: (getHistory st ttsKey).take 49 := by
  simp [saveTTSHistoryS, saveTTSHistory, mkTTSItem, getHistory_setHistory]

theorem fold_hist_inv (F : ℕ → Store → Store) (g : ℕ → HistoryItem)
    (key : String)
    (hF : ∀ i st, getHistory (F i st) key = g i :: (getHistory st key).take 49) :
    ∀ (k : ℕ) (store0 : Store), getHistory store0 key = [] →
      getHistory ((List.range k).foldl (fun st i => F i st) store0) key =
        (((List.range k).map g).reverse).take 50 := by
  intro k
  induction k with
  | zero => intro store0 h0; simpa using h0
  | succ k ih =>
    intro store0 h0
    rw [List.range_succ, List.foldl_append, List.foldl_cons, List.foldl_nil,
      hF, ih store0 h0, List.take_take, List.map_append, List.reverse_append]
    have h50 : (50 : ℕ) = 49 + 1 := rfl
    simp only [List.map_cons, List.map_nil, List.reverse_cons, List.reverse_nil,
      List.nil_append, List.singleton_append]
    rw [h50, List.take_succ_cons]
    norm_num

/-- C5: appending `k` entries sequentially via `saveSTTHistory`
(respectively `saveTTSHistory`) to an initially empty collection of that
kind leaves exactly `min k 50` entries, ordered newest first: the `j`-th
stored entry is the `(k-1-j)`-th appended one, so after 60 appends the 50
most recent remain and the oldest are evicted. -/
theorem history_cap (k : ℕ) (a : ℕ → STTArgs) (b : ℕ → TTSArgs)
    (store0 : Store)
    (hs : getHistory store0 sttKey = [])
    (ht : getHistory store0 ttsKey = []) :
    ((getHistory ((List.range k).foldl
        (fun st i => saveSTTHistoryS (a i) st) store0) sttKey).length =
      min k 50 ∧
     ∀ j, j < min k 50 →
       (getHistory ((List.range k).foldl
         (fun st i => saveSTTHistoryS (a i) st) store0) sttKey).getD j default =
         mkSTTItem (a (k - 1 - j))) ∧
    ((getHistory ((List.range k).foldl
        (fun st i => saveTTSHistoryS (b i) st) store0) ttsKey).length =
      min k 50 ∧
     ∀ j, j < min k 50 →
       (getHistory ((List.range k).foldl
         (fun st i => saveTTSHistoryS (b i) st) store0) ttsKey).getD j default =
         mkTTSItem (b (k - 1 - j))) := by
  have hS := fold_hist_inv (fun i st => saveSTTHistoryS (a i) st)
    (fun i => mkSTTItem (a i)) sttKey (fun i st => saveSTT_step (a i) st)
    k store0 hs
  have hT := fold_hist_inv (fun i st => saveTTSHistoryS (b i) st)
    (fun i => mkTTSItem (b i)) ttsKey (fun i st => saveTTS_step (b i) st)
    k store0 ht
  constructor
  · constructor
    · rw [hS]; simp; omega
    · intro j hj
      have hjlen : j < ((((List.range k).map
          (fun i => mkSTTItem (a i))).reverse).take 50).length := by
        simp; omega
      rw [hS, List.getD_eq_getElem _ _ hjlen, List.getElem_take,
        List.getElem_reverse, List.getElem_map, List.getElem_range]
      congr 1
      simp
  · constructor
    · rw [hT]; simp; omega
    · intro j hj
      have hjlen : j < ((((List.range k).map
          (fun i => mkTTSItem (b i))).reverse).take 50).length := by
        simp; omega
      rw [hT, List.getD_eq_getElem _ _ hjlen, List.getElem_take,
        List.getElem_reverse, List.getElem_map, List.getElem_range]
      congr 1
      simp

/-- Concrete inputs used to exercise `history_cap`. -/
def cSTTArgs : STTArgs :=
  { newId := "id-1", timestamp := "2024-01-01", content := "hello",
    accuracy := 0.95, language := "en", duration := 5 }

/-- Concrete inputs used to exercise `history_cap` on the TTS side. -/
def cTTSArgs : TTSArgs :=
  { newId := "id-2", timestamp := "2024-01-01", content := "hi",
    voiceModel := "21m00Tcm4TlvDq8ikWAM", language := "en", duration := 1 }

theorem history_cap_witness :
    (getHistory ((List.range 60).foldl
      (fun st _ => saveSTTHistoryS cSTTArgs st) emptyStore) sttKey).length =
      min 60 50 ∧
    (getHistory ((List.range 60).foldl
      (fun st _ => saveSTTHistoryS cSTTArgs st) emptyStore) sttKey).getD 0
        default = mkSTTItem cSTTArgs := by
  have h := history_cap 60 (fun _ => cSTTArgs) (fun _ => cTTSArgs)
    emptyStore rfl rfl
  exact ⟨h.1.1, h.1.2 0 (by norm_num)⟩

/-! ## De-duplication pass (`cleanupDuplicateHistory`, lines 70-83)

`new Map(history.map(item => [item.id, item]))` inserts the pairs in array
order; `Map.set` updates the value of an existing key in place (keeping its
insertion position) and appends a fresh key at the end, so for duplicate ids
the value of the *last* array occurrence wins.  `Array.from(map.values())`
then lists the retained values. -/

/-- One `Map.set` step of the `new Map(...)` construction. -/
def jsMapSet (m : List (String × HistoryItem)) (k : String) (v : HistoryItem) :
    List (String × HistoryItem) :=
  if k ∈ m.map Prod.fst then m.map (fun p => if p.1 = k then (k, v) else p)
  else m ++ [(k, v)]

/-- `new Map(l.map(item => [item.id, item]))`. -/
def buildJsMap (l : List HistoryItem) : List (String × HistoryItem) :=
  l.foldl (fun m item => jsMapSet m item.id item) []

/-- `Array.from(new Map(l.map(item => [item.id, item])).values())`. -/
def dedupeById (l : List HistoryItem) : List HistoryItem :=
  (buildJsMap l).map Prod.snd

/-- `cleanupDuplicateHistory` (lines 70-83): de-duplicate both history
collections by id and persist them. -/
def cleanupDuplicateHistory (store : Store) : Store :=
  let sttHistory := getHistory store sttKey
  let ttsHistory := getHistory store ttsKey
  let uniqueSTT := dedupeById sttHistory
  let uniqueTTS := dedupeById ttsHistory
  setHistory (setHistory store sttKey uniqueSTT) ttsKey uniqueTTS

/-- `Map.get`: value of the first (and, under the nodup-keys invariant,
only) entry with the given key. -/
def mget : List (String × HistoryItem) → String → Option HistoryItem
  | [], _ => none
  | p :: t, k => if p.1 = k then some p.2 else mget t k

/-- The last element of the list whose id is `k`, if any. -/
def lastOccurrence (k : String) : List HistoryItem → Option HistoryItem
  | [] => none
  | x :: t =>
    match lastOccurrence k t with
    | some r => some r
    | none => if x.id = k then some x else none

theorem mget_map_upd (k : String) (v : HistoryItem) :
    ∀ m : List (String × HistoryItem), k ∈ m.map Prod.fst →
      mget (m.map (fun p => if p.1 = k then (k, v) else p)) k = some v := by
  intro m
  induction m with
  | nil => intro h; simp at h
  | cons p t ih =>
    intro h
    by_cases hp : p.1 = k
    · simp [List.map_cons, if_pos hp, mget]
    · simp only [List.map_cons, if_neg hp, mget, if_neg hp]
      apply ih
      simp only [List.map_cons, List.mem_cons] at h
      rcases h with h | h
      · exact absurd h.symm hp
      · exact h

theorem mget_append_single (k : String) (v : HistoryItem) :
    ∀ m : List (String × HistoryItem), k ∉ m.map Prod.fst →
      mget (m ++ [(k, v)]) k = some v := by
  intro m
  induction m with
  | nil => intro _; simp [mget]
  | cons p t ih =>
    intro h
    simp only [List.map_cons, List.mem_cons, not_or] at h
    rw [List.cons_append, mget, if_neg (fun hh : p.1 = k => h.1 hh.symm)]
    exact ih h.2

theorem mget_set_self (m : List (String × HistoryItem)) (k : String)
    (v : HistoryItem) : mget (jsMapSet m k v) k = some v := by
  rw [jsMapSet]
  split
  · exact mget_map_upd k v m (by assumption)
  · exact mget_append_single k v m (by assumption)

theorem mget_map_upd_other (k q : String) (v : HistoryItem) (hq : q ≠ k) :
    ∀ m : List (String × HistoryItem),
      mget (m.map (fun p => if p.1 = k then (k, v) else p)) q = mget m q := by
  intro m
  induction m with
  | nil => simp
  | cons p t ih =>
    by_cases hp : p.1 = k
    · simp only [List.map_cons, if_pos hp, mget]
      rw [if_neg (fun hh : k = q => hq hh.symm),
        if_neg (show ¬p.1 = q by rw [hp]; exact fun hh => hq hh.symm), ih]
    · simp only [List.map_cons, if_neg hp, mget, ih]

theorem mget_append_single_other (k q : String) (v : HistoryItem) (hq : q ≠ k) :
    ∀ m : List (String × HistoryItem), mget (m ++ [(k, v)]) q = mget m q := by
  intro m
  induction m with
  | nil =>
    rw [List.nil_append]
    simp [mget, Ne.symm hq]
  | cons p t ih =>
    rw [List.cons_append, mget, mget, ih]

theorem mget_set_other (m : List (String × HistoryItem)) (k q : String)
    (v : HistoryItem) (hq : q ≠ k) : mget (jsMapSet m k v) q = mget m q := by
  rw [jsMapSet]
  split
  · exact mget_map_upd_other k q v hq m
  · exact mget_append_single_other k q v hq m

theorem keys_set (m : List (String × HistoryItem)) (k : String)
    (v : HistoryItem) :
    (jsMapSet m k v).map Prod.fst =
      if k ∈ m.map Prod.fst then m.map Prod.fst
      else m.map Prod.fst ++ [k] := by
  rw [jsMapSet]
  split
  · rw [List.map_map]
    apply List.map_congr_left
    intro p hp
    by_cases hpk : p.1 = k
    · simp [hpk]
    · simp [hpk]
  · simp

theorem mem_keys_set (m : List (String × HistoryItem)) (k q : String)
    (v : HistoryItem) :
    q ∈ (jsMapSet m k v).map Prod.fst ↔ q ∈ m.map Prod.fst ∨ q = k := by
  rw [keys_set]
  split
  · constructor
    · exact fun h => Or.inl h
    · rintro (h | rfl)
      · exact h
      · assumption
  · simp

theorem nodup_keys_set (m : List (String × HistoryItem)) (k : String)
    (v : HistoryItem) (h : (m.map Prod.fst).Nodup) :
    ((jsMapSet m k v).map Prod.fst).Nodup := by
  rw [keys_set]
  split
  · exact h
  · simp only [List.nodup_append, List.nodup_cons, List.not_mem_nil,
      not_false_iff, List.nodup_nil, and_true, true_and]
    constructor
    · exact h
    · intro q hq
      simp only [List.mem_singleton]
      intro hqk
      subst hqk
      exact (by assumption : q ∉ m.map Prod.fst) hq

/-- Invariant of the built map: each entry's value carries its key as id. -/
def WFmap (m : List (String × HistoryItem)) : Prop := ∀ p ∈ m, p.2.id = p.1

theorem wf_set (m : List (String × HistoryItem)) (k : String) (v : HistoryItem)
    (hw : WFmap m) (hv : v.id = k) : WFmap (jsMapSet m k v) := by
  rw [jsMapSet]
  split
  · intro p hp
    rcases List.mem_map.mp hp with ⟨p0, hp0, rfl⟩
    by_cases h0 : p0.1 = k
    · simp [h0, hv]
    · simp [h0, hw p0 hp0]
  · intro p hp
    rcases List.mem_append.mp hp with h | h
    · exact hw p h
    · rcases List.mem_singleton.mp h with rfl
      exact hv

theorem fold_mget (q : String) :
    ∀ (l : List HistoryItem) (m : List (String × HistoryItem)),
      mget (l.foldl (fun m item => jsMapSet m item.id item) m) q =
        match lastOccurrence q l with
        | some it => some it
        | none => mget m q := by
  intro l
  induction l with
  | nil => intro m; simp [lastOccurrence]
  | cons x t ih =>
    intro m
    rw [List.foldl_cons, ih]
    cases h : lastOccurrence q t with
    | some r => simp [lastOccurrence, h]
    | none =>
      simp only [lastOccurrence, h]
      by_cases hx : x.id = q
      · subst hx
        rw [mget_set_self, if_pos rfl]
      · rw [mget_set_other _ _ _ _ (fun hh => hx hh.symm), if_neg hx]

theorem fold_keys_mem (q : String) :
    ∀ (l : List HistoryItem) (m : List (String × HistoryItem)),
      (q ∈ ((l.foldl (fun m item => jsMapSet m item.id item) m)).map Prod.fst ↔
        q ∈ m.map Prod.fst ∨ q ∈ l.map HistoryItem.id) := by
  intro l
  induction l with
  | nil => intro m; simp
  | cons x t ih =>
    intro m
    rw [List.foldl_cons, ih, mem_keys_set]
    simp only [List.map_cons, List.mem_cons]
    tauto

theorem fold_keys_nodup :
    ∀ (l : List HistoryItem) (m : List (String × HistoryItem)),
      (m.map Prod.fst).Nodup →
      (((l.foldl (fun m item => jsMapSet m item.id item) m)).map
        Prod.fst).Nodup := by
  intro l
  induction l with
  | nil => intro m h; exact h
  | cons x t ih =>
    intro m h
    rw [List.foldl_cons]
    exact ih _ (nodup_keys_set m x.id x h)

theorem fold_wf :
    ∀ (l : List HistoryItem) (m : List (String × HistoryItem)),
      WFmap m → WFmap (l.foldl (fun m item => jsMapSet m item.id item) m) := by
  intro l
  induction l with
  | nil => intro m h; exact h
  | cons x t ih =>
    intro m h
    rw [List.foldl_cons]
    exact ih _ (wf_set m x.id x h rfl)

theorem lastOccurrence_isSome (q : String) :
    ∀ l : List HistoryItem,
      (lastOccurrence q l).isSome ↔ q ∈ l.map HistoryItem.id := by
  intro l
  induction l with
  | nil => simp [lastOccurrence]
  | cons x t ih =>
    cases h : lastOccurrence q t with
    | some r =>
      simp only [lastOccurrence, h, Option.isSome_some, true_iff,
        List.map_cons, List.mem_cons]
      right
      rw [← ih, h]
      rfl
    | none =>
      simp only [lastOccurrence, h, List.map_cons, List.mem_cons]
      rw [← ih, h]
      by_cases hx : x.id = q
      · simp [hx]
      · simp only [if_neg hx, Option.isSome_none, Bool.false_eq_true,
          false_iff, not_or]
        constructor
        · exact fun hh => hx hh.symm
        · simp

theorem mget_of_mem_nodup :
    ∀ m : List (String × HistoryItem), (m.map Prod.fst).Nodup →
      ∀ k v, (k, v) ∈ m → mget m k = some v := by
  intro m
  induction m with
  | nil => intro _ k v h; simp at h
  | cons p t ih =>
    intro hnd k v h
    simp only [List.map_cons, List.nodup_cons] at hnd
    rcases List.mem_cons.mp h with rfl | h
    · simp [mget]
    · have hk : p.1 ≠ k := by
        intro hh
        apply hnd.1
        rw [hh]
        exact List.mem_map.mpr ⟨(k, v), h, rfl⟩
      rw [mget, if_neg hk]
      exact ih hnd.2 k v h

theorem dedupe_props (l : List HistoryItem) :
    ((dedupeById l).map HistoryItem.id).Nodup ∧
    (∀ q, q ∈ (dedupeById l).map HistoryItem.id ↔ q ∈ l.map HistoryItem.id) ∧
    (∀ it ∈ dedupeById l, lastOccurrence it.id l = some it) := by
  have hwf : WFmap (buildJsMap l) := fold_wf l [] (fun p hp => by simp at hp)
  have hkeys : (dedupeById l).map HistoryItem.id =
      (buildJsMap l).map Prod.fst := by
    rw [dedupeById, List.map_map]
    apply List.map_congr_left
    intro p hp
    exact hwf p hp
  have hnd : ((buildJsMap l).map Prod.fst).Nodup :=
    fold_keys_nodup l [] (by simp)
  refine ⟨?_, ?_, ?_⟩
  · rw [hkeys]; exact hnd
  · intro q
    rw [hkeys, buildJsMap, fold_keys_mem]
    simp
  · intro it hit
    rcases List.mem_map.mp hit with ⟨p, hp, rfl⟩
    obtain ⟨k, v⟩ := p
    have hid : v.id = k := hwf (k, v) hp
    have hm : mget (buildJsMap l) k = some v := mget_of_mem_nodup _ hnd k v hp
    show lastOccurrence v.id l = some v
    rw [hid]
    have hfold := fold_mget k l []
    rw [buildJsMap] at hm
    rw [hm] at hfold
    cases h : lastOccurrence k l with
    | some r =>
      rw [h] at hfold
      exact hfold.symm
    | none =>
      rw [h] at hfold
      simp [mget] at hfold

/-- The more recent of two entries sharing id "a" in a newest-first
collection. -/
def dupNew : HistoryItem :=
  { id := "a", content := "new text", accuracy := 0.95, voiceModel := "",
    language := "en", duration := 5, timestamp := "2024-01-02", type := "stt" }

/-- The older duplicate with the same id. -/
def dupOld : HistoryItem :=
  { id := "a", content := "old text", accuracy := 0.95, voiceModel := "",
    language := "en", duration := 5, timestamp := "2024-01-01", type := "stt" }

/-- C6 counterexample: on the newest-first collection `[dupNew, dupOld]`
(both with id "a"), the de-duplication pass retains `dupOld` — the *oldest*
duplicate — not the most recent one, because JavaScript `Map` keeps the
value of the last array occurrence per key. -/
theorem cleanup_dedupe_counterexample :
    getHistory (cleanupDuplicateHistory
        (setHistory emptyStore sttKey [dupNew, dupOld])) sttKey =
      [dupOld] ∧
    dupOld ≠ dupNew := by
  constructor
  · rfl
  · intro h
    exact absurd (congrArg HistoryItem.content h) (by decide)

/-- C6 (amended): the de-duplication pass leaves exactly one entry per
unique id (the ids of the result are nodup and cover exactly the ids
present before), and for duplicated ids the retained entry is the
last-listed occurrence — in a newest-first collection, the oldest
duplicate, not the most recent one. -/
theorem cleanup_dedupe (store : Store) :
    getHistory (cleanupDuplicateHistory store) sttKey =
      dedupeById (getHistory store sttKey) ∧
    getHistory (cleanupDuplicateHistory store) ttsKey =
      dedupeById (getHistory store ttsKey) ∧
    ∀ l : List HistoryItem,
      ((dedupeById l).map HistoryItem.id).Nodup ∧
      (∀ q, q ∈ (dedupeById l).map HistoryItem.id ↔
        q ∈ l.map HistoryItem.id) ∧
      (∀ it ∈ dedupeById l, lastOccurrence it.id l = some it) := by
  refine ⟨?_, ?_, dedupe_props⟩
  · rw [cleanupDuplicateHistory]
    rw [getHistory_setHistory_ne _ _ _ _ (by decide), getHistory_setHistory]
  · rw [cleanupDuplicateHistory, getHistory_setHistory]

theorem cleanup_dedupe_witness :
    lastOccurrence dupOld.id [dupNew, dupOld] = some dupOld :=
  ((cleanup_dedupe emptyStore).2.2 [dupNew, dupOld]).2.2 dupOld
    (by rw [show dedupeById [dupNew, dupOld] = [dupOld] from rfl]
        exact List.mem_singleton.mpr rfl)

/-- C10: `saveSTTHistory` writes only the `speechLab_stt_history` key and
`saveTTSHistory` writes only the `speechLab_tts_history` key; every other
storage key — in particular the respective sibling history key — is left
unchanged. -/
theorem save_frame (newId ts content vm lang : String) (acc dur : ℚ)
    (store : Store) :
    (∀ k2, k2 ≠ sttKey →
      (saveSTTHistory newId ts content acc lang dur store).2 k2 = store k2) ∧
    (saveSTTHistory newId ts content acc lang dur store).2 ttsKey =
      store ttsKey ∧
    (∀ k2, k2 ≠ ttsKey →
      (saveTTSHistory newId ts content vm lang dur store).2 k2 = store k2) ∧
    (saveTTSHistory newId ts content vm lang dur store).2 sttKey =
      store sttKey := by
  refine ⟨?_, ?_, ?_, ?_⟩
  · intro k2 h
    simp [saveSTTHistory, setHistory, h]
  · simp [saveSTTHistory, setHistory, show ttsKey ≠ sttKey from by decide]
  · intro k2 h
    simp [saveTTSHistory, setHistory, h]
  · simp [saveTTSHistory, setHistory, show sttKey ≠ ttsKey from by decide]

theorem save_frame_witness :
    (saveSTTHistory "id-3" "2024-01-01" "hi" 0.95 "en" 5 emptyStore).2
      "speechLab_settings" = emptyStore "speechLab_settings" :=
  (save_frame "id-3" "2024-01-01" "hi" "" "en" 0.95 5 emptyStore).1
    "speechLab_settings" (by decide)

/-! ## Recording stop handler and fallback (SpeechLab.jsx lines 434-534)

Nondeterministic inputs (network outcome, `Math.random` draw, generated id,
timestamp) are explicit parameters; a network outcome is `Except Unit
String` (a `TransportError` or the transcription text). -/

/-- The four fallback strings of `simulateBrowserTranscription`
(lines 521-534). -/
def sampleTexts : List String :=
  ["This is a sample transcription of your audio recording.",
   "Your speech has been successfully converted to text.",
   "The audio processing is complete and here is your transcribed text.",
   "Speech recognition completed. This is the transcribed content."]

/-- `simulateBrowserTranscription`: pick the sample text indexed by the
`Math.floor(Math.random() * sampleTexts.length)` draw. -/
def simulateBrowserTranscription (r : Fin 4) : String :=
  sampleTexts.getD r.val ""

/-- `mediaRecorder.onstop` (lines 461-503): with recorded chunks present,
transcribe via the backend when connected (success: accuracy 0.95; failure:
the simulated fallback text with the initial accuracy 0.85; not connected:
same fallback), then record exactly one speech-to-text history entry with
duration 5 and show the transcription.  Returns the displayed transcription
and the updated storage. -/
def mediaRecorderOnStop (chunksNonempty backendConnected : Bool)
    (whisperResult : Except Unit String) (r : Fin 4)
    (newId ts language : String) (store : Store) : String × Store :=
  if chunksNonempty then
    let pair : String × ℚ :=
      if backendConnected then
        match whisperResult with
        | Except.ok t => (t, 0.95)
        | Except.error _ => (simulateBrowserTranscription r, 0.85)
      else (simulateBrowserTranscription r, 0.85)
    ((pair.1), (saveSTTHistory newId ts pair.1 pair.2 language 5 store).2)
  else ("", store)

theorem simulate_nonempty : ∀ r : Fin 4, simulateBrowserTranscription r ≠ "" := by
  decide

/-- C7: when the transcription request fails after a completed recording,
the stop handler still shows a non-empty placeholder transcript and records
exactly one new speech-to-text entry whose accuracy 0.85 is lower than the
success-path accuracy 0.95 (which the success path indeed records); no
other storage key changes, so the recording is never silently dropped. -/
theorem onstop_fallback (r : Fin 4) (newId ts lang : String) (store : Store) :
    (mediaRecorderOnStop true true (Except.error ()) r newId ts lang store).1 ≠
      "" ∧
    getHistory (mediaRecorderOnStop true true (Except.error ()) r newId ts
        lang store).2 sttKey =
      mkSTTItem ⟨newId, ts, simulateBrowserTranscription r, 0.85, lang, 5⟩ ::
        (getHistory store sttKey).take 49 ∧
    (mediaRecorderOnStop true true (Except.error ()) r newId ts lang
        store).1 = simulateBrowserTranscription r ∧
    (0.85 : ℚ) < 0.95 ∧
    (∀ k2, k2 ≠ sttKey →
      (mediaRecorderOnStop true true (Except.error ()) r newId ts lang
        store).2 k2 = store k2) ∧
    (∀ t store2,
      getHistory (mediaRecorderOnStop true true (Except.ok t) r newId ts lang
          store2).2 sttKey =
        mkSTTItem ⟨newId, ts, t, 0.95, lang, 5⟩ ::
          (getHistory store2 sttKey).take 49) := by
  refine ⟨simulate_nonempty r, ?_, rfl, by norm_num, ?_, ?_⟩
  · simp [mediaRecorderOnStop, saveSTTHistory, mkSTTItem, getHistory_setHistory]
  · intro k2 h
    simp [mediaRecorderOnStop, saveSTTHistory, setHistory, h]
  · intro t store2
    simp [mediaRecorderOnStop, saveSTTHistory, mkSTTItem, getHistory_setHistory]

theorem onstop_fallback_witness :
    (mediaRecorderOnStop true true (Except.error ()) 0 "id-9" "2024-01-01"
      "en" emptyStore).2 ttsKey = emptyStore ttsKey :=
  (onstop_fallback 0 "id-9" "2024-01-01" "en" emptyStore).2.2.2.2.1 ttsKey
    (by decide)

/-! ## Input validation (`handleAudioUpload` lines 612-684,
`handleTextToSpeech` lines 570-596) -/

/-- The file selected in the upload input. -/
structure UploadFile where
  name : String
  size : ℕ
  mime : String

/-- `allowedTypes` (line 624). -/
def allowedTypes : List String :=
  ["audio/mpeg", "audio/wav", "audio/webm", "audio/ogg", "audio/x-m4a",
   "audio/mp4"]

/-- The case-insensitive extension test of line 625. -/
def nameMatchesAudioExt (name : String) : Bool :=
  [".mp3", ".wav", ".webm", ".ogg", ".m4a", ".mp4"].any
    (fun e => name.toLower.endsWith e)

/-- `handleAudioUpload` (lines 612-684): reject oversized (> 100 MB) or
non-audio files before any network request; otherwise transcribe via the
backend when connected (one network request; fallback text and accuracy
0.92 on failure or when offline) and record one history entry with duration
10.  Returns the updated storage and the number of network requests
issued. -/
def handleAudioUpload (file : Option UploadFile) (backendConnected : Bool)
    (whisperResult : Except Unit String) (r : Fin 4) (newId ts lang : String)
    (store : Store) : Store × ℕ :=
  match file with
  | none => (store, 0)
  | some f =>
    if f.size > 100 * 1024 * 1024 then (store, 0)
    else if ¬ (f.mime ∈ allowedTypes ∨ nameMatchesAudioExt f.name = true) then
      (store, 0)
    else if backendConnected then
      match whisperResult with
      | Except.ok t =>
        let transcription :=
          if t = "" then "Transcription completed successfully." else t
        ((saveSTTHistory newId ts transcription 0.95 lang 10 store).2, 1)
      | Except.error _ =>
        ((saveSTTHistory newId ts (simulateBrowserTranscription r) 0.92 lang
          10 store).2, 1)
    else
      ((saveSTTHistory newId ts (simulateBrowserTranscription r) 0.92 lang
        10 store).2, 0)

/-- `customText || text` from line 571. -/
def ttsEffectiveText (customText : Option String) (text : String) : String :=
  match customText with
  | some t => if t = "" then text else t
  | none => text

/-- `handleTextToSpeech` (lines 570-596): reject empty or whitespace-only
text before any network request; otherwise synthesize (one network request
iff the backend is connected; local fallback otherwise or on failure) and,
if playback did not throw, record one text-to-speech history entry with
duration `length/10`. -/
def handleTextToSpeech (customText : Option String) (text : String)
    (backendConnected ttsSuccess localTTSOk : Bool)
    (newId ts voiceModel lang : String) (store : Store) : Store × ℕ :=
  let textToSpeak := ttsEffectiveText customText text
  if jsTrim textToSpeak = "" then (store, 0)
  else
    let networkCalls : ℕ := if backendConnected then 1 else 0
    let saved := if backendConnected then ttsSuccess || localTTSOk
      else localTTSOk
    if saved then
      ((saveTTSHistory newId ts textToSpeak voiceModel lang
        ((textToSpeak.length : ℚ) / 10) store).2, networkCalls)
    else (store, networkCalls)

/-- C8: a selected file larger than 100 MB is rejected by
`handleAudioUpload` with no network request and no history entry, and an
empty or whitespace-only synthesis text is rejected by `handleTextToSpeech`
with no network request and no history entry. -/
theorem validation_rejects (f : UploadFile) (backendConnected : Bool)
    (w : Except Unit String) (r : Fin 4) (newId ts lang : String)
    (ct : Option String) (text ts2 vm : String) (tSucc lOk : Bool)
    (store : Store) :
    (f.size > 100 * 1024 * 1024 →
      handleAudioUpload (some f) backendConnected w r newId ts lang store =
        (store, 0)) ∧
    (jsTrim (ttsEffectiveText ct text) = "" →
      handleTextToSpeech ct text backendConnected tSucc lOk newId ts2 vm lang
        store = (store, 0)) := by
  constructor
  · intro h
    simp [handleAudioUpload, h]
  · intro h
    simp [handleTextToSpeech, h]

/-- A 100 MB + 1 byte file. -/
def oversizedFile : UploadFile :=
  { name := "big.wav", size := 104857601, mime := "audio/wav" }

theorem validation_rejects_witness :
    handleAudioUpload (some oversizedFile) true (Except.ok "x") 0 "id-5"
      "2024-01-01" "en" emptyStore = (emptyStore, 0) ∧
    handleTextToSpeech none "  " true true true "id-6" "2024-01-01"
      "21m00Tcm4TlvDq8ikWAM" "en" emptyStore = (emptyStore, 0) :=
  ⟨(validation_rejects oversizedFile true (Except.ok "x") 0 "id-5"
      "2024-01-01" "en" none "  " "2024-01-01" "21m00Tcm4TlvDq8ikWAM" true
      true emptyStore).1 (by decide),
   (validation_rejects oversizedFile true (Except.ok "x") 0 "id-5"
      "2024-01-01" "en" none "  " "2024-01-01" "21m00Tcm4TlvDq8ikWAM" true
      true emptyStore).2 (by decide)⟩

/-! ## Recording auto-stop timeout (SpeechLab.jsx lines 505-512,
VoicePersonalizer.jsx lines 246-254)

Both `startRecording` functions schedule
`setTimeout(() => { if (isRecording) stopRecording(); }, ...)` (30 s in
SpeechLab, 10 s in VoicePersonalizer).  The callback closes over the
`isRecording` binding of the render in which `startRecording` was created;
React state reads in a closure see the value from that render, not the
current state.  Since the record button offers `startRecording` only while
`isRecording` is false (SpeechLab.jsx line 839, VoicePersonalizer.jsx line
473), the captured value is `false`.  `stopRecording` likewise closes over
the same render's `isRecording`. -/

/-- The recording-related component state: the React `isRecording` state,
whether `mediaRecorderRef.current` is set, and whether the platform
recorder is actually recording. -/
structure RecorderState where
  isRecording : Bool
  mediaRecorderSet : Bool
  recorderRecording : Bool
deriving DecidableEq

/-- `stopRecording` as created in a render where `isRecording` had the
given value: `if (mediaRecorderRef.current && isRecording)` stop the
recorder and clear the state flag. -/
def stopRecording (renderIsRecording : Bool) (s : RecorderState) :
    RecorderState :=
  if s.mediaRecorderSet && renderIsRecording then
    { s with recorderRecording := false, isRecording := false }
  else s

/-- `startRecording`: create and start the recorder, set `isRecording`;
returns the new state together with the `isRecording` value captured by the
scheduled auto-stop timeout closure (the value in the render that created
this `startRecording`, i.e. at invocation time). -/
def startRecording (s : RecorderState) : RecorderState × Bool :=
  ({ isRecording := true, mediaRecorderSet := true,
     recorderRecording := true },
   s.isRecording)

/-- The auto-stop timeout callback: `if (isRecording) stopRecording();`
with both names bound to the captured render's versions. -/
def autoStopTimeout (capturedIsRecording : Bool) (s : RecorderState) :
    RecorderState :=
  if capturedIsRecording then stopRecording capturedIsRecording s else s

/-- The idle state from which the record button can be pressed. -/
def idleRecorder : RecorderState :=
  { isRecording := false, mediaRecorderSet := false,
    recorderRecording := false }

/-- C9 evaluated at the failing input: start a recording from idle and let
the auto-stop timeout fire with no manual stop in between.  The timeout
callback captured `isRecording = false`, so it does nothing and the
recorder is still recording — the forced transition to stopped that the
claim requires never happens, although a manual stop (whose handler comes
from a render with `isRecording = true`) would stop it. -/
theorem autoStop_dead :
    (startRecording idleRecorder).1.recorderRecording = true ∧
    (startRecording idleRecorder).2 = false ∧
    autoStopTimeout (startRecording idleRecorder).2
      (startRecording idleRecorder).1 = (startRecording idleRecorder).1 ∧
    (autoStopTimeout (startRecording idleRecorder).2
      (startRecording idleRecorder).1).recorderRecording = true ∧
    (stopRecording true (startRecording idleRecorder).1).recorderRecording =
      false := by
  refine ⟨rfl, rfl, rfl, rfl, rfl⟩

end SpeechLab
